import Mathlib

/-!
Verification development for the message delivery and deduplication engine of
the ivasms-otp repository (`src/apps/sender_bot.py`, storage layer in
`src/app/storage.py`).

The Python code is shallowly embedded as executable Lean definitions:

* a fetched message row (a Python dict of strings) becomes an association
  list `Item`;
* the per-day delivery state (`seen_keys`, `sent`, `latest_by_thread`,
  `delivered_by_msg`) becomes the structure `Store`;
* the Telegram network boundary is abstracted as an oracle: every
  send/edit call is given its parsed JSON reply (or the fact that the
  request raised) through the `Attempt` / `GroupEnv` types;
* wall-clock instants (`time.time()`, `date.today()`, `time.strftime`)
  are passed in as explicit parameters;
* logging, markdown formatting of the outgoing text (`build_message`),
  and sleeping are omitted: they do not touch the persisted state.

Definitions keep the source's names (`msg_key`, `thread_key`,
`extract_code`, `fetch_messages`'s limit handling, `cleanup_old_daily_files`,
`load_daily_store`, `cache_get_valid_token`, `cache_set_token`,
`get_or_refresh_account_token`, `edit_telegram_message`, and the dispatch
section of `run_loop`).
-/

/-- A fetched message row: the engine treats it as a string-keyed dict.
Missing keys read as `""` (the code wraps every read in `str(item.get(k, ""))`). -/
abbrev Item := List (String × String)

/-- `str(item.get(k, ""))` — first binding wins, absent keys give `""`. -/
def item_get (item : Item) (k : String) : String :=
  match item.find? (fun p => p.1 == k) with
  | some p => p.2
  | none => ""

/-- Python `str.strip()` (ASCII whitespace), on the character list so that
it evaluates inside the kernel. -/
def pyStrip (s : String) : String :=
  String.mk
    (((s.data.dropWhile Char.isWhitespace).reverse.dropWhile Char.isWhitespace).reverse)

/-- Python `str.lower()` (ASCII case folding). -/
def pyLower (s : String) : String := String.mk (s.data.map Char.toLower)

/-- The stable-identifier keys probed by `msg_key`, in source order. -/
def STABLE_ID_KEYS : List String :=
  ["id", "message_id", "sms_id", "code_id", "created_at", "received_at",
   "timestamp", "date", "time"]

/-- `msg_key(item)` from `sender_bot.py`: content fingerprint, extended with
the first nonempty stable identifier/timestamp field when one is present. -/
def msg_key (item : Item) : String :=
  let number := item_get item "number"
  let service_name := item_get item "service_name"
  let message := item_get item "message"
  let rng := item_get item "range"
  let base := number ++ "|" ++ service_name ++ "|" ++ rng ++ "|" ++ message
  match STABLE_ID_KEYS.find? (fun k => pyStrip (item_get item k) != "") with
  | some k => base ++ "|" ++ k ++ "=" ++ pyStrip (item_get item k)
  | none => base

/-- `thread_key(item)` from `sender_bot.py`. -/
def thread_key (item : Item) : String :=
  let number := item_get item "number"
  let service_name := item_get item "service_name"
  let rng := item_get item "range"
  number ++ "|" ++ service_name ++ "|" ++ rng

/-- Word character of the regex `\b` boundary (ASCII fragment of `\w`). -/
def isWordChar (c : Char) : Bool := c.isAlphanum || c = '_'

/-- Length of the maximal digit run at the head of the list. -/
def digitRun : List Char → Nat
  | [] => 0
  | c :: rest => if c.isDigit then digitRun rest + 1 else 0

/-- Is there a `\b` boundary after a word character, i.e. is the next
character absent or a non-word character? -/
def boundaryAfter : List Char → Bool
  | [] => true
  | c :: _ => !(isWordChar c)

/-- Match of `\b\d{2,4}-\d{2,4}\b` anchored at the head of `cs` (the
left boundary is checked by the caller).  Greediness collapses: the digit
groups must cover their maximal runs, otherwise the following literal or
boundary fails. -/
def matchCodeDashAt (cs : List Char) : Option (List Char) :=
  let r1 := digitRun cs
  if 2 ≤ r1 ∧ r1 ≤ 4 then
    match cs.drop r1 with
    | '-' :: rest2 =>
        let r2 := digitRun rest2
        if 2 ≤ r2 ∧ r2 ≤ 4 ∧ boundaryAfter (rest2.drop r2) then
          some (cs.take r1 ++ '-' :: rest2.take r2)
        else none
    | _ => none
  else none

/-- Match of `\b\d{4,8}\b` anchored at the head of `cs`. -/
def matchPlainAt (cs : List Char) : Option (List Char) :=
  let r := digitRun cs
  if 4 ≤ r ∧ r ≤ 8 ∧ boundaryAfter (cs.drop r) then some (cs.take r) else none

/-- `re.search`: try the anchored matcher at every position whose left side
is a `\b` boundary (tracked by `prevW`, the word-ness of the previous
character), returning the leftmost match. -/
def scanText (f : List Char → Option (List Char)) : Bool → List Char → Option (List Char)
  | _, [] => none
  | prevW, c :: rest =>
      if prevW then scanText f (isWordChar c) rest
      else
        match f (c :: rest) with
        | some m => some m
        | none => scanText f (isWordChar c) rest

/-- `extract_code(message)` from `sender_bot.py`: prefer `\d{2,4}-\d{2,4}`,
fall back to a plain 4-8 digit run, else `""`. -/
def extract_code (message : String) : String :=
  match scanText matchCodeDashAt false message.data with
  | some m => String.mk m
  | none =>
      match scanText matchPlainAt false message.data with
      | some m => String.mk m
      | none => ""

/-- Python `a or b` on strings (empty string is falsy). -/
def pyOrStr (a b : String) : String := if a = "" then b else a

/-- Python `a or b` where `a` is `result_row.get("message_id")` and `b` a
previous message id: `None` and `0` are falsy. -/
def pyOrOpt (a b : Option Int) : Option Int :=
  match a with
  | none => b
  | some v => if v = 0 then b else some v

/-- Python `pat in s` on the underlying characters. -/
def containsSub (pat : List Char) : List Char → Bool
  | [] => pat.isPrefixOf []
  | c :: rest => pat.isPrefixOf (c :: rest) || containsSub pat rest

/-- Python `pat in s` for strings. -/
def strContains (s pat : String) : Bool := containsSub pat.data s.data

/-- A configured destination group (`{"name": ..., "chat_id": ...}`). -/
structure TgGroup where
  name : String
  chat_id : String
deriving DecidableEq

/-- Parsed reply of one Telegram HTTP call as `run_loop` consumes it:
an `ok` reply carrying `result.message_id` when present, a non-ok reply
carrying `description` and `parameters.retry_after` (0 when absent), or a
raised `requests` exception. -/
inductive Attempt where
  | respOk (message_id : Option Int) : Attempt
  | respFail (description : String) (retry_after : Int) : Attempt
  | raise : Attempt
deriving DecidableEq

/-- The network oracle for one (message, destination) pair: the reply of the
`edit_telegram_message` call (consulted only when a prior handle exists),
of the first `send_telegram_message` call, and of the single retry send
(consulted only after a rate-limited first send). -/
structure GroupEnv where
  edit : Attempt
  send1 : Attempt
  send2 : Attempt
deriving DecidableEq

/-- Outcome of the per-destination body of the dispatch loop
(`run_loop` lines 1083-1139) for one group. -/
structure GroupStep where
  delivered : Bool
  msg_id : Option Int
  nextEntry : Option Int
  markInvalid : Bool
  editCalls : Nat
  sendCalls : Nat
deriving DecidableEq

/-- Success tail of the loop body: `msg_id = result.message_id or prev`;
the handle is recorded in `next_map` only when it is an `int`. -/
def successStep (prev respMid : Option Int) (editCalls sendCalls : Nat) : GroupStep :=
  let mid := pyOrOpt respMid prev
  { delivered := true, msg_id := mid, nextEntry := mid, markInvalid := false,
    editCalls := editCalls, sendCalls := sendCalls }

/-- `continue` path of the loop body: nothing recorded, destination possibly
blacklisted ("chat not found"). -/
def skipStep (markInvalid : Bool) (editCalls sendCalls : Nat) : GroupStep :=
  { delivered := false, msg_id := none, nextEntry := none,
    markInvalid := markInvalid, editCalls := editCalls, sendCalls := sendCalls }

/-- The fresh-send part of the loop body: first send, one retry after a
rate-limit reply with positive `retry_after`, and the "chat not found"
blacklisting check on the final failed reply. -/
def sendPhase (prev : Option Int) (env : GroupEnv) (editCalls : Nat) : GroupStep :=
  match env.send1 with
  | Attempt.raise => skipStep false editCalls 1
  | Attempt.respOk mid => successStep prev mid editCalls 1
  | Attempt.respFail d1 ra =>
      if 0 < ra then
        match env.send2 with
        | Attempt.raise => skipStep false editCalls 2
        | Attempt.respOk mid => successStep prev mid editCalls 2
        | Attempt.respFail d2 _ =>
            skipStep (strContains (pyLower d2) "chat not found") editCalls 2
      else skipStep (strContains (pyLower d1) "chat not found") editCalls 1

/-- One destination of the dispatch loop: edit first when a prior integer
handle exists, otherwise (or on edit failure/exception) fall through to the
fresh-send phase. -/
def runGroup (prev : Option Int) (env : GroupEnv) : GroupStep :=
  match prev with
  | none => sendPhase none env 0
  | some p =>
      match env.edit with
      | Attempt.respOk mid => successStep (some p) mid 1 0
      | _ => sendPhase (some p) env 1

/-- Record appended to `sent_info` for one successful destination. -/
structure SentInfo where
  group : String
  chat_id : String
  message_id : Option Int
deriving DecidableEq

/-- One audit record of `day_store["sent"]`.  `sent_at` is the wall-clock
string `time.strftime(...)`, passed in as a parameter. -/
structure SentRecord where
  number : String
  code : String
  service_name : String
  range : String
  message : String
  revenue : String
  groups : List SentInfo
  thread_key : String
  sent_at : String
deriving DecidableEq

/-- The DailyStore: in-memory view of one day's persisted record.
`latest_by_thread` maps a thread key and a chat id to the editable message
id; `delivered_by_msg` maps a message key to the set of delivered chat ids
(stored as a sorted list in JSON, read back as a set). -/
structure Store where
  day : String
  seen_keys : Finset String
  sent : List SentRecord
  latest_by_thread : String → String → Option Int
  delivered_by_msg : String → Finset String

/-- The fresh fallback store of `load_daily_store`. -/
def emptyDayStore (day : String) : Store :=
  { day := day, seen_keys := ∅, sent := [],
    latest_by_thread := fun _ _ => none, delivered_by_msg := fun _ => ∅ }

/-- Mutable state of the inner `for grp in task_groups` loop. -/
structure MsgLoopState where
  invalid : Finset String
  delivered : Finset String
  any_sent : Bool
  sent_info : List SentInfo
  next_map : String → Option Int

/-- Initial state of the loop: `delivered_set` seeded from
`delivered_by_msg`, empty `sent_info` and `next_map`. -/
def initMsgState (invalid delivered : Finset String) : MsgLoopState :=
  { invalid := invalid, delivered := delivered, any_sent := false,
    sent_info := [], next_map := fun _ => none }

/-- The `for grp in task_groups` loop of `run_loop`: groups already in
`invalid_groups` are skipped; a success sets `any_sent`, extends
`delivered_set` and `sent_info` and (for integer handles) `next_map`;
a terminal "chat not found" failure blacklists the group. -/
def runGroupsAux (prevMap : String → Option Int) :
    List (TgGroup × GroupEnv) → MsgLoopState → MsgLoopState
  | [], st => st
  | (g, env) :: rest, st =>
      if g.chat_id ∈ st.invalid then runGroupsAux prevMap rest st
      else if (runGroup (prevMap g.chat_id) env).delivered then
        runGroupsAux prevMap rest
          { invalid := st.invalid,
            delivered := insert g.chat_id st.delivered,
            any_sent := true,
            sent_info := st.sent_info ++
              [⟨g.name, g.chat_id, (runGroup (prevMap g.chat_id) env).msg_id⟩],
            next_map :=
              match (runGroup (prevMap g.chat_id) env).nextEntry with
              | some v => fun x => if x = g.chat_id then some v else st.next_map x
              | none => st.next_map }
      else
        runGroupsAux prevMap rest
          { st with invalid :=
              if (runGroup (prevMap g.chat_id) env).markInvalid
              then insert g.chat_id st.invalid else st.invalid }

/-- The set of destinations the loop delivers to, mirroring the control flow
of `runGroupsAux` (used to state what the loop adds to `delivered_set`). -/
def successSet (prevMap : String → Option Int) :
    List (TgGroup × GroupEnv) → Finset String → Finset String
  | [], _ => ∅
  | (g, env) :: rest, invalid =>
      if g.chat_id ∈ invalid then successSet prevMap rest invalid
      else if (runGroup (prevMap g.chat_id) env).delivered then
        insert g.chat_id (successSet prevMap rest invalid)
      else
        successSet prevMap rest
          (if (runGroup (prevMap g.chat_id) env).markInvalid
           then insert g.chat_id invalid else invalid)

/-- `merged_map = dict(prev_map); merged_map.update(next_map)`. -/
def mergedThreadMap (prevMap nextMap : String → Option Int) : String → Option Int :=
  fun gid =>
    match nextMap gid with
    | some v => some v
    | none => prevMap gid

/-- The audit record built at `run_loop` lines 1147-1159 (the `sent_at`
wall-clock string is a parameter; `revenue` and the raw fields come from
the item). -/
def mkSentRecord (now_str : String) (item : Item) (infos : List SentInfo) : SentRecord :=
  { number := item_get item "number",
    code := pyOrStr (extract_code (item_get item "message")) (item_get item "number"),
    service_name := item_get item "service_name",
    range := item_get item "range",
    message := item_get item "message",
    revenue := item_get item "revenue",
    groups := infos,
    thread_key := thread_key item,
    sent_at := now_str }

/-- Dispatch of one message (`run_loop` lines 1067-1163): run the group
loop; when anything was sent or the delivered set is nonempty, record the
message as seen, merge the new handles into `latest_by_thread`, replace
`delivered_by_msg[mkey]`, append one audit record, and persist. -/
def dispatchMessage (now_str : String) (item : Item) (pairs : List (TgGroup × GroupEnv))
    (store : Store) (invalid : Finset String) : Store × Finset String :=
  let st := runGroupsAux (store.latest_by_thread (thread_key item)) pairs
      (initMsgState invalid (store.delivered_by_msg (msg_key item)))
  if st.any_sent = true ∨ st.delivered.Nonempty then
    ({ day := store.day,
       seen_keys := insert (msg_key item) store.seen_keys,
       sent := store.sent ++ [mkSentRecord now_str item st.sent_info],
       latest_by_thread := fun t =>
         if t = thread_key item
         then mergedThreadMap (store.latest_by_thread (thread_key item)) st.next_map
         else store.latest_by_thread t,
       delivered_by_msg := fun k =>
         if k = msg_key item then st.delivered else store.delivered_by_msg k },
     st.invalid)
  else (store, st.invalid)

/-- Task computation (`run_loop` lines 1043-1054): one task per merged row
that still owes delivery to at least one configured, non-invalid group;
the flag records `mkey not in seen_keys`. -/
def computeTasks (rows : List Item) (groups : List TgGroup) (store : Store)
    (invalid : Finset String) : List (Item × List TgGroup × Bool) :=
  rows.filterMap fun item =>
    let delivered_set := store.delivered_by_msg (msg_key item)
    let missing := groups.filter fun g =>
      g.chat_id ∉ delivered_set ∧ g.chat_id ∉ invalid
    if missing = [] then none
    else some (item, missing, msg_key item ∉ store.seen_keys)

/-- One fold step of the dispatch loop over tasks. -/
def dispatchTaskStep (now_str : String) (env : Item → TgGroup → GroupEnv)
    (acc : Store × Finset String) (task : Item × List TgGroup × Bool) :
    Store × Finset String :=
  dispatchMessage now_str task.1 (task.2.1.map (fun g => (g, env task.1 g))) acc.1 acc.2

/-- The dispatch section of one poll cycle (`run_loop` lines 1043-1163):
compute the tasks once, then dispatch them in order, threading the store
and the invalid set. -/
def dispatchCycle (now_str : String) (rows : List Item) (groups : List TgGroup)
    (env : Item → TgGroup → GroupEnv) (store : Store) (invalid : Finset String) :
    Store × Finset String :=
  (computeTasks rows groups store invalid).foldl (dispatchTaskStep now_str env)
    (store, invalid)

/-- Insertion-ordered dict update: `uniq[k] = v` keeps the position of an
existing key and appends a new key at the end (Python dict semantics). -/
def upsertRow (k : String) (v : Item) : List (String × Item) → List (String × Item)
  | [] => [(k, v)]
  | (k1, v1) :: rest =>
      if k1 = k then (k, v) :: rest else (k1, v1) :: upsertRow k v rest

/-- `uniq = {}; for row in all_rows: uniq[msg_key(row)] = row` — the merged,
deduplicated map in first-occurrence order with last-writer-wins values. -/
def mergeRows (all_rows : List Item) : List (String × Item) :=
  all_rows.foldl (fun acc row => upsertRow (msg_key row) row acc) []

/-- `run_loop` line 1042: the merged deduplicated values, truncated to
`current_limit` entries unless the limit is ≤ 0. -/
def merged_rows (all_rows : List Item) (limit : Int) : List Item :=
  let uniqVals := (mergeRows all_rows).map Prod.snd
  if limit ≤ 0 then uniqVals else uniqVals.take limit.toNat

/-- The limit handling of `fetch_messages` (lines 859-861): the rows of one
source's reply are returned whole when `limit <= 0`, else capped per call. -/
def fetch_messages_rows (rows : List Item) (limit : Int) : List Item :=
  if limit ≤ 0 then rows else rows.take limit.toNat

/-- Raw parsed JSON of one Telegram `editMessageText` HTTP reply, as
`edit_telegram_message` reads it. -/
structure RawResp where
  ok : Bool
  description : String
  result_message_id : Option Int
deriving DecidableEq

/-- What `edit_telegram_message` returns to `run_loop`. -/
structure EditResult where
  ok : Bool
  result_message_id : Option Int
  not_modified : Bool
  description : String
deriving DecidableEq

/-- `edit_telegram_message(bot_token, chat_id, message_id, text, copy_value)`:
post the edit (`r1`); an ok reply is returned as is; a "message is not
modified" failure is converted into a success that keeps `message_id`;
any other failure retries once with the fallback keyboard (`r2`), whose
"message is not modified" failure is converted the same way, and whose
result is otherwise returned as is. -/
def edit_telegram_message (message_id : Int) (r1 r2 : RawResp) : EditResult :=
  if r1.ok then
    { ok := true, result_message_id := r1.result_message_id,
      not_modified := false, description := r1.description }
  else if strContains (pyLower r1.description) "message is not modified" then
    { ok := true, result_message_id := some message_id,
      not_modified := true, description := "" }
  else if r2.ok = false ∧
      strContains (pyLower r2.description) "message is not modified" then
    { ok := true, result_message_id := some message_id,
      not_modified := true, description := "" }
  else
    { ok := r2.ok, result_message_id := r2.result_message_id,
      not_modified := false, description := r2.description }

/-- How `run_loop` consumes an `edit_telegram_message` return value:
only `ok` and `result.message_id` are read. -/
def attemptOfEdit (e : EditResult) : Attempt :=
  if e.ok then Attempt.respOk e.result_message_id
  else Attempt.respFail e.description 0

/-- The persisted collection of per-day stores (the `daily_store` table of
`app/storage.py`: `get_daily_store` / `set_daily_store` /
`delete_daily_store` / `list_daily_store_days`). -/
def DailyDB := String → Option Store

/-- `cleanup_old_daily_files(current_day_key)`: delete every persisted day
other than the current one (the legacy `messages_*.json` unlink loop has
the same keep-only-current semantics on the side files). -/
def cleanup_old_daily_files (db : DailyDB) (current_day_key : String) : DailyDB :=
  fun day_key => if day_key = current_day_key then db day_key else none

/-- `load_daily_store(day_key)`: return the persisted store with its `day`
field set, or a fresh empty store when none (or no well-shaped one) is
persisted for that day. -/
def load_daily_store (db : DailyDB) (day_key : String) : Store :=
  match db day_key with
  | some s => { s with day := day_key }
  | none => emptyDayStore day_key

/-- `TOKEN_TTL_SECONDS = 2 * 60 * 60`. -/
def TOKEN_TTL_SECONDS : Int := 2 * 60 * 60

/-- `TOKEN_REFRESH_SKEW_SECONDS = 5 * 60`. -/
def TOKEN_REFRESH_SKEW_SECONDS : Int := 5 * 60

/-- One row of the token cache (`{"token", "obtained_at", "expires_at"}`). -/
structure TokenRow where
  token : String
  obtained_at : Int
  expires_at : Int
deriving DecidableEq

/-- The token cache keyed by account name (`cache["accounts"]`). -/
def TokenCache := String → Option TokenRow

/-- `cache_get_valid_token(cache, account_name)` at time `now`: the cached
token, unless it is missing, blank, or expires within the refresh skew. -/
def cache_get_valid_token (cache : TokenCache) (account_name : String) (now : Int) :
    Option String :=
  match cache account_name with
  | none => none
  | some row =>
      let token := pyStrip row.token
      if token = "" ∨ row.expires_at ≤ now + TOKEN_REFRESH_SKEW_SECONDS then none
      else some token

/-- `cache_set_token(cache, account_name, token)` at time `now`. -/
def cache_set_token (cache : TokenCache) (account_name : String) (token : String)
    (now : Int) : TokenCache :=
  fun n =>
    if n = account_name then
      some { token := token, obtained_at := now, expires_at := now + TOKEN_TTL_SECONDS }
    else cache n

/-- Python truthiness of `account_tokens.get(name)`. -/
def truthyStr : Option String → Bool
  | none => false
  | some s => s != ""

/-- Result of `get_or_refresh_account_token`: the returned token, the
updated in-memory map and cache, whether `save_token_cache` ran (the
synchronous persist), and whether `api_login` was called. -/
structure BrokerResult where
  result : Option String
  account_tokens : String → Option String
  token_cache : TokenCache
  saved : Bool
  loginCalled : Bool

/-- `get_or_refresh_account_token`: prefer the in-memory token while the
cache entry is still valid; else adopt a valid cached token; else log in
(`loginResult` is the oracle for `api_login`), and on success update both
maps and persist the cache before returning. -/
def get_or_refresh_account_token (now : Int) (name : String)
    (account_tokens : String → Option String) (cache : TokenCache)
    (loginResult : Option String) : BrokerResult :=
  if truthyStr (account_tokens name) ∧ (cache_get_valid_token cache name now).isSome then
    { result := account_tokens name, account_tokens := account_tokens,
      token_cache := cache, saved := false, loginCalled := false }
  else
    match cache_get_valid_token cache name now with
    | some cached =>
        { result := some cached,
          account_tokens := fun n => if n = name then some cached else account_tokens n,
          token_cache := cache, saved := false, loginCalled := false }
    | none =>
        match loginResult with
        | none =>
            { result := none, account_tokens := account_tokens,
              token_cache := cache, saved := false, loginCalled := true }
        | some tok =>
            { result := some tok,
              account_tokens := fun n => if n = name then some tok else account_tokens n,
              token_cache := cache_set_token cache name tok now,
              saved := true, loginCalled := true }

/-- The poll-loop state relevant to the dispatch engine: the runtime-config
marker last seen, the configured groups, the process-lifetime invalid set,
the in-memory day store and the active day. -/
structure BotState where
  update_marker : String
  target_groups : List TgGroup
  invalid : Finset String
  store : Store
  active_day : String

/-- The per-iteration inputs of the poll loop: the current runtime-config
marker, the groups a reload would load, the persisted day stores, the
pause flag, today's date, the wall-clock string, the concatenated rows of
all per-source fetches, the per-cycle limit and the network oracle. -/
structure CycleInput where
  latest_marker : String
  reload_groups : List TgGroup
  db : DailyDB
  fetch_enabled : Bool
  now_day : String
  now_str : String
  all_rows : List Item
  limit : Int
  env : Item → TgGroup → GroupEnv

/-- One iteration of `run_loop`'s `while True` (lines 920-1163), eliding
logging, sleeping, credentials and the write-back of saves into the
persisted map: a changed nonempty marker reloads the groups, clears
`invalid_groups` and re-reads the day store; a pause or an empty group
list skips the cycle; a date change rotates (purge + fresh load); then
the merged rows are dispatched. -/
def cycleStep (inp : CycleInput) (st0 : BotState) : BotState :=
  let st1 :=
    if inp.latest_marker ≠ "" ∧ inp.latest_marker ≠ st0.update_marker then
      { st0 with update_marker := inp.latest_marker,
                 target_groups := inp.reload_groups,
                 invalid := ∅,
                 store := load_daily_store inp.db st0.active_day }
    else st0
  if inp.fetch_enabled = false then st1
  else if st1.target_groups = [] then st1
  else
    let st2 :=
      if inp.now_day ≠ st1.active_day then
        { st1 with active_day := inp.now_day,
                   store := load_daily_store (cleanup_old_daily_files inp.db inp.now_day)
                     inp.now_day }
      else st1
    let out := dispatchCycle inp.now_str (merged_rows inp.all_rows inp.limit)
      st2.target_groups inp.env st2.store st2.invalid
    { st2 with store := out.1, invalid := out.2 }

/-- The group loop only ever adds destinations to `delivered_set`:
its final value is the initial one united with the successes. -/
theorem runGroupsAux_delivered (prevMap : String → Option Int)
    (pairs : List (TgGroup × GroupEnv)) (st : MsgLoopState) :
    (runGroupsAux prevMap pairs st).delivered
      = st.delivered ∪ successSet prevMap pairs st.invalid := by
  induction pairs generalizing st with
  | nil => simp [runGroupsAux, successSet]
  | cons hd rest ih =>
      obtain ⟨g, env⟩ := hd
      by_cases h1 : g.chat_id ∈ st.invalid
      · simp [runGroupsAux, successSet, h1, ih]
      · by_cases h2 : (runGroup (prevMap g.chat_id) env).delivered = true
        · simp only [runGroupsAux, successSet, h1, if_false, h2, if_true]
          rw [ih]
          simp [Finset.insert_union, Finset.union_insert]
        · have h2' : (runGroup (prevMap g.chat_id) env).delivered = false := by
            simpa using h2
          simp only [runGroupsAux, successSet, h1, if_false, h2', Bool.false_eq_true]
          rw [ih]

/-- `any_sent` ends up true exactly when it started true or some
destination succeeded. -/
theorem runGroupsAux_any_sent (prevMap : String → Option Int)
    (pairs : List (TgGroup × GroupEnv)) (st : MsgLoopState) :
    (runGroupsAux prevMap pairs st).any_sent = true ↔
      st.any_sent = true ∨ (successSet prevMap pairs st.invalid).Nonempty := by
  induction pairs generalizing st with
  | nil => simp [runGroupsAux, successSet]
  | cons hd rest ih =>
      obtain ⟨g, env⟩ := hd
      by_cases h1 : g.chat_id ∈ st.invalid
      · simp [runGroupsAux, successSet, h1, ih]
      · by_cases h2 : (runGroup (prevMap g.chat_id) env).delivered = true
        · simp only [runGroupsAux, successSet, h1, if_false, h2, if_true]
          rw [ih]
          simp
        · have h2' : (runGroup (prevMap g.chat_id) env).delivered = false := by
            simpa using h2
          simp only [runGroupsAux, successSet, h1, if_false, h2', Bool.false_eq_true]
          rw [ih]

/-- The loop never removes a destination from `invalid_groups`. -/
theorem runGroupsAux_invalid_mono (prevMap : String → Option Int)
    (pairs : List (TgGroup × GroupEnv)) (st : MsgLoopState) :
    st.invalid ⊆ (runGroupsAux prevMap pairs st).invalid := by
  induction pairs generalizing st with
  | nil => simp [runGroupsAux]
  | cons hd rest ih =>
      obtain ⟨g, env⟩ := hd
      by_cases h1 : g.chat_id ∈ st.invalid
      · simp only [runGroupsAux, h1, if_true]
        exact ih st
      · by_cases h2 : (runGroup (prevMap g.chat_id) env).delivered = true
        · simp only [runGroupsAux, h1, if_false, h2, if_true]
          refine Finset.Subset.trans ?_ (ih _)
          exact subset_rfl
        · have h2' : (runGroup (prevMap g.chat_id) env).delivered = false := by
            simpa using h2
          simp only [runGroupsAux, h1, if_false, h2', Bool.false_eq_true, if_false]
          by_cases h3 : (runGroup (prevMap g.chat_id) env).markInvalid = true
          · simp only [h3, if_true]
            refine Finset.Subset.trans ?_ (ih _)
            exact Finset.subset_insert _ _
          · have h3' : (runGroup (prevMap g.chat_id) env).markInvalid = false := by
              simpa using h3
            simp only [h3', Bool.false_eq_true, if_false]
            refine Finset.Subset.trans ?_ (ih _)
            exact subset_rfl

/-- Destinations for which no pair of the loop yields an integer handle
leave `next_map` untouched. -/
theorem runGroupsAux_next_map_frame (prevMap : String → Option Int)
    (pairs : List (TgGroup × GroupEnv)) (st : MsgLoopState) (gid : String)
    (h : ∀ g env, (g, env) ∈ pairs → g.chat_id = gid →
        (runGroup (prevMap g.chat_id) env).nextEntry = none) :
    (runGroupsAux prevMap pairs st).next_map gid = st.next_map gid := by
  induction pairs generalizing st with
  | nil => simp [runGroupsAux]
  | cons hd rest ih =>
      obtain ⟨g, env⟩ := hd
      have hrest : ∀ g1 env1, (g1, env1) ∈ rest → g1.chat_id = gid →
          (runGroup (prevMap g1.chat_id) env1).nextEntry = none := by
        intro g1 env1 hm he
        exact h g1 env1 (List.mem_cons_of_mem _ hm) he
      by_cases h1 : g.chat_id ∈ st.invalid
      · simp only [runGroupsAux, h1, if_true]
        exact ih st hrest
      · by_cases h2 : (runGroup (prevMap g.chat_id) env).delivered = true
        · simp only [runGroupsAux, h1, if_false, h2, if_true]
          by_cases hg : g.chat_id = gid
          · have hnone := h g env (List.mem_cons_self _ _) hg
            rw [hnone]
            exact ih _ hrest
          · cases hne : (runGroup (prevMap g.chat_id) env).nextEntry with
            | none => exact ih _ hrest
            | some v =>
                rw [ih _ hrest]
                simp [Ne.symm hg]
        · have h2' : (runGroup (prevMap g.chat_id) env).delivered = false := by
            simpa using h2
          simp only [runGroupsAux, h1, if_false, h2', Bool.false_eq_true]
          exact ih _ hrest

/-- Dispatching one message replaces its delivered set by the old set
united with this round's successes — and touches no other message key
beyond the same union shape (keys other than `msg_key item` are equal). -/
theorem dispatchMessage_delivered_update (now_str : String) (item : Item)
    (pairs : List (TgGroup × GroupEnv)) (store : Store) (invalid : Finset String) :
    (dispatchMessage now_str item pairs store invalid).1.delivered_by_msg (msg_key item)
      = store.delivered_by_msg (msg_key item) ∪
        successSet (store.latest_by_thread (thread_key item)) pairs invalid := by
  unfold dispatchMessage
  set st0 := initMsgState invalid (store.delivered_by_msg (msg_key item)) with hst0
  have hdel := runGroupsAux_delivered (store.latest_by_thread (thread_key item)) pairs st0
  by_cases hg : (runGroupsAux (store.latest_by_thread (thread_key item)) pairs st0).any_sent
      = true ∨ (runGroupsAux (store.latest_by_thread (thread_key item)) pairs st0).delivered.Nonempty
  · simp only [hg, if_true]
    simpa [hst0, initMsgState] using hdel
  · simp only [hg, if_false]
    have hno : ¬ (successSet (store.latest_by_thread (thread_key item)) pairs
        st0.invalid).Nonempty := by
      intro hne
      exact hg (Or.inl ((runGroupsAux_any_sent _ pairs st0).2 (Or.inr hne)))
    have hempty : successSet (store.latest_by_thread (thread_key item)) pairs
        st0.invalid = ∅ := Finset.not_nonempty_iff_eq_empty.1 hno
    have : successSet (store.latest_by_thread (thread_key item)) pairs invalid = ∅ := by
      simpa [hst0, initMsgState] using hempty
    simp [this]

/-- Dispatching one message never removes destinations from any
message's delivered set. -/
theorem dispatchMessage_delivered_mono (now_str : String) (item : Item)
    (pairs : List (TgGroup × GroupEnv)) (store : Store) (invalid : Finset String)
    (k : String) :
    store.delivered_by_msg k ⊆
      (dispatchMessage now_str item pairs store invalid).1.delivered_by_msg k := by
  unfold dispatchMessage
  set st0 := initMsgState invalid (store.delivered_by_msg (msg_key item)) with hst0
  have hdel := runGroupsAux_delivered (store.latest_by_thread (thread_key item)) pairs st0
  by_cases hg : (runGroupsAux (store.latest_by_thread (thread_key item)) pairs st0).any_sent
      = true ∨ (runGroupsAux (store.latest_by_thread (thread_key item)) pairs st0).delivered.Nonempty
  · simp only [hg, if_true]
    by_cases hk : k = msg_key item
    · subst hk
      rw [if_pos rfl, hdel]
      simp [hst0, initMsgState, Finset.subset_union_left]
    · rw [if_neg hk]
  · simp only [hg, if_false]
    exact subset_rfl

/-- Dispatching one message never removes destinations from the invalid
set. -/
theorem dispatchMessage_invalid_mono (now_str : String) (item : Item)
    (pairs : List (TgGroup × GroupEnv)) (store : Store) (invalid : Finset String) :
    invalid ⊆ (dispatchMessage now_str item pairs store invalid).2 := by
  unfold dispatchMessage
  set st0 := initMsgState invalid (store.delivered_by_msg (msg_key item)) with hst0
  have hmono := runGroupsAux_invalid_mono (store.latest_by_thread (thread_key item)) pairs st0
  by_cases hg : (runGroupsAux (store.latest_by_thread (thread_key item)) pairs st0).any_sent
      = true ∨ (runGroupsAux (store.latest_by_thread (thread_key item)) pairs st0).delivered.Nonempty
  · simp only [hg, if_true]
    simpa [hst0, initMsgState] using hmono
  · simp only [hg, if_false]
    simpa [hst0, initMsgState] using hmono

/-- Dispatching one message either leaves `sent` unchanged (all attempts
failed and the prior delivered set was empty) or appends exactly one
record; the old log is always a prefix. -/
theorem dispatchMessage_sent_shape (now_str : String) (item : Item)
    (pairs : List (TgGroup × GroupEnv)) (store : Store) (invalid : Finset String) :
    (dispatchMessage now_str item pairs store invalid).1.sent.length
      = store.sent.length +
        (if (successSet (store.latest_by_thread (thread_key item)) pairs invalid).Nonempty
            ∨ (store.delivered_by_msg (msg_key item)).Nonempty then 1 else 0)
    ∧ store.sent <+: (dispatchMessage now_str item pairs store invalid).1.sent := by
  unfold dispatchMessage
  set st0 := initMsgState invalid (store.delivered_by_msg (msg_key item)) with hst0
  have hdel := runGroupsAux_delivered (store.latest_by_thread (thread_key item)) pairs st0
  have hany := runGroupsAux_any_sent (store.latest_by_thread (thread_key item)) pairs st0
  have hguard : ((runGroupsAux (store.latest_by_thread (thread_key item)) pairs st0).any_sent
      = true ∨ (runGroupsAux (store.latest_by_thread (thread_key item)) pairs st0).delivered.Nonempty)
      ↔ ((successSet (store.latest_by_thread (thread_key item)) pairs invalid).Nonempty
         ∨ (store.delivered_by_msg (msg_key item)).Nonempty) := by
    rw [hany, hdel]
    simp only [hst0, initMsgState, Bool.false_eq_true, false_or]
    constructor
    · rintro (hs | hu)
      · exact Or.inl hs
      · obtain ⟨x, hx⟩ := hu
        rcases Finset.mem_union.1 hx with hx1 | hx2
        · exact Or.inr ⟨x, hx1⟩
        · exact Or.inl ⟨x, hx2⟩
    · rintro (hs | hd)
      · exact Or.inl hs
      · obtain ⟨x, hx⟩ := hd
        exact Or.inr ⟨x, Finset.mem_union_left _ hx⟩
  by_cases hg : (runGroupsAux (store.latest_by_thread (thread_key item)) pairs st0).any_sent
      = true ∨ (runGroupsAux (store.latest_by_thread (thread_key item)) pairs st0).delivered.Nonempty
  · simp only [hg, if_true]
    constructor
    · rw [if_pos (hguard.1 hg)]
      simp
    · exact List.prefix_append _ _
  · simp only [hg, if_false]
    constructor
    · rw [if_neg (fun hc => hg (hguard.2 hc))]
      simp
    · exact List.prefix_rfl

/-- Folding dispatch steps over tasks never removes delivered destinations. -/
theorem foldl_dispatch_delivered_mono (now_str : String)
    (env : Item → TgGroup → GroupEnv) (tasks : List (Item × List TgGroup × Bool))
    (acc : Store × Finset String) (k : String) :
    acc.1.delivered_by_msg k ⊆
      (tasks.foldl (dispatchTaskStep now_str env) acc).1.delivered_by_msg k := by
  induction tasks generalizing acc with
  | nil => exact subset_rfl
  | cons t rest ih =>
      simp only [List.foldl_cons]
      exact (dispatchMessage_delivered_mono now_str t.1 _ acc.1 acc.2 k).trans
        (ih (dispatchTaskStep now_str env acc t))

/-- Folding dispatch steps over tasks never removes invalid destinations. -/
theorem foldl_dispatch_invalid_mono (now_str : String)
    (env : Item → TgGroup → GroupEnv) (tasks : List (Item × List TgGroup × Bool))
    (acc : Store × Finset String) :
    acc.2 ⊆ (tasks.foldl (dispatchTaskStep now_str env) acc).2 := by
  induction tasks generalizing acc with
  | nil => exact subset_rfl
  | cons t rest ih =>
      simp only [List.foldl_cons]
      exact (dispatchMessage_invalid_mono now_str t.1 _ acc.1 acc.2).trans
        (ih (dispatchTaskStep now_str env acc t))

/-- `upsertRow` only yields the new pair or pairs already present. -/
theorem mem_upsertRow (k : String) (v : Item) (m : List (String × Item))
    (p : String × Item) (hp : p ∈ upsertRow k v m) : p = (k, v) ∨ p ∈ m := by
  induction m with
  | nil => simpa [upsertRow] using hp
  | cons q rest ih =>
      obtain ⟨k1, v1⟩ := q
      by_cases hk : k1 = k
      · simp only [upsertRow, hk, if_true] at hp
        rcases List.mem_cons.1 hp with h | h
        · exact Or.inl h
        · exact Or.inr (List.mem_cons_of_mem _ h)
      · simp only [upsertRow, hk, if_false] at hp
        rcases List.mem_cons.1 hp with h | h
        · exact Or.inr (h ▸ List.mem_cons_self _ _)
        · rcases ih h with h1 | h1
          · exact Or.inl h1
          · exact Or.inr (List.mem_cons_of_mem _ h1)

/-- Every value of the merged map comes from the fetched rows. -/
theorem mem_mergeRows_values (all_rows : List Item) :
    ∀ p ∈ mergeRows all_rows, p.2 ∈ all_rows := by
  have key : ∀ (rows : List Item) (m : List (String × Item)) (p : String × Item),
      p ∈ rows.foldl (fun acc row => upsertRow (msg_key row) row acc) m →
      p ∈ m ∨ p.2 ∈ rows := by
    intro rows
    induction rows with
    | nil => intro m p hp; exact Or.inl hp
    | cons r rest ih =>
        intro m p hp
        simp only [List.foldl_cons] at hp
        rcases ih _ p hp with h | h
        · rcases mem_upsertRow _ _ _ _ h with h1 | h1
          · exact Or.inr (by simp [h1])
          · exact Or.inl h1
        · exact Or.inr (List.mem_cons_of_mem _ h)
  intro p hp
  rcases key all_rows [] p hp with h | h
  · simp at h
  · exact h

/-- Keys of an `upsertRow` result: unchanged when the key was present,
appended at the end otherwise. -/
theorem keys_upsertRow (k : String) (v : Item) (m : List (String × Item)) :
    (upsertRow k v m).map Prod.fst =
      if k ∈ m.map Prod.fst then m.map Prod.fst else m.map Prod.fst ++ [k] := by
  induction m with
  | nil => simp [upsertRow]
  | cons q rest ih =>
      obtain ⟨k1, v1⟩ := q
      by_cases hk : k1 = k
      · simp [upsertRow, hk]
      · simp only [upsertRow, hk, if_false, List.map_cons]
        rw [ih]
        by_cases hmem : k ∈ rest.map Prod.fst
        · simp [hmem, Ne.symm hk]
        · simp [hmem, Ne.symm hk]

/-- `upsertRow` preserves distinctness of keys. -/
theorem nodup_keys_upsertRow (k : String) (v : Item) (m : List (String × Item))
    (h : (m.map Prod.fst).Nodup) : ((upsertRow k v m).map Prod.fst).Nodup := by
  rw [keys_upsertRow]
  by_cases hmem : k ∈ m.map Prod.fst
  · simpa [hmem] using h
  · simp only [hmem, if_false]
    exact List.Nodup.append h (List.nodup_singleton k) (by simpa using hmem)

/-- The merged map has pairwise distinct keys. -/
theorem nodup_keys_mergeRows (all_rows : List Item) :
    ((mergeRows all_rows).map Prod.fst).Nodup := by
  have key : ∀ (rows : List Item) (m : List (String × Item)),
      (m.map Prod.fst).Nodup →
      (((rows.foldl (fun acc row => upsertRow (msg_key row) row acc) m)).map Prod.fst).Nodup := by
    intro rows
    induction rows with
    | nil => intro m h; exact h
    | cons r rest ih =>
        intro m h
        simp only [List.foldl_cons]
        exact ih _ (nodup_keys_upsertRow _ _ _ h)
  exact key all_rows [] (by simp)

/-- Every pair of the merged map satisfies `key = msg_key value`. -/
theorem key_eq_msg_key_mergeRows (all_rows : List Item) :
    ∀ p ∈ mergeRows all_rows, p.1 = msg_key p.2 := by
  have key : ∀ (rows : List Item) (m : List (String × Item)),
      (∀ p ∈ m, p.1 = msg_key p.2) →
      ∀ p ∈ rows.foldl (fun acc row => upsertRow (msg_key row) row acc) m,
        p.1 = msg_key p.2 := by
    intro rows
    induction rows with
    | nil => intro m h; exact h
    | cons r rest ih =>
        intro m h
        simp only [List.foldl_cons]
        refine ih _ ?_
        intro p hp
        rcases mem_upsertRow _ _ _ _ hp with h1 | h1
        · simp [h1]
        · exact h p h1
  intro p hp
  exact key all_rows [] (by simp) p hp

/-- The message keys of the merged, deduplicated values are pairwise
distinct. -/
theorem nodup_msg_keys_merged (all_rows : List Item) :
    (((mergeRows all_rows).map Prod.snd).map msg_key).Nodup := by
  have heq : ((mergeRows all_rows).map Prod.snd).map msg_key
      = (mergeRows all_rows).map Prod.fst := by
    rw [List.map_map]
    exact List.map_congr_left fun p hp =>
      (key_eq_msg_key_mergeRows all_rows p hp).symm
  rw [heq]
  exact nodup_keys_mergeRows all_rows

/-- C1: Idempotence of a poll cycle — if every destination of every fetched
row's message key is already in `delivered_by_msg`, the dispatch section
computes no dispatch task and leaves the `sent` list unchanged. -/
theorem C1_idempotent_cycle (now_str : String) (all_rows : List Item) (limit : Int)
    (groups : List TgGroup) (env : Item → TgGroup → GroupEnv)
    (store : Store) (invalid : Finset String)
    (h : ∀ item ∈ all_rows, ∀ g ∈ groups,
        g.chat_id ∈ store.delivered_by_msg (msg_key item)) :
    computeTasks (merged_rows all_rows limit) groups store invalid = []
    ∧ (dispatchCycle now_str (merged_rows all_rows limit) groups env store
        invalid).1.sent = store.sent := by
  have hmem : ∀ item ∈ merged_rows all_rows limit, item ∈ all_rows := by
    intro item hit
    have hval : item ∈ (mergeRows all_rows).map Prod.snd := by
      unfold merged_rows at hit
      by_cases hl : limit ≤ 0
      · simpa [hl] using hit
      · exact List.take_subset _ _ (by simpa [hl] using hit)
    obtain ⟨p, hp, hpe⟩ := List.mem_map.1 hval
    exact hpe ▸ mem_mergeRows_values all_rows p hp
  have htasks : computeTasks (merged_rows all_rows limit) groups store invalid = [] := by
    unfold computeTasks
    rw [List.filterMap_eq_nil_iff]
    intro item hit
    have hfil : (groups.filter fun g =>
        g.chat_id ∉ store.delivered_by_msg (msg_key item) ∧ g.chat_id ∉ invalid) = [] := by
      rw [List.filter_eq_nil_iff]
      intro g hg
      simp [h item (hmem item hit) g hg]
    simp only [hfil, if_true]
  refine ⟨htasks, ?_⟩
  unfold dispatchCycle
  rw [htasks]
  rfl

/-- C1 witness: a concrete fetched row whose only destination is already
delivered produces no task and an unchanged `sent` list. -/
theorem C1_idempotent_cycle_w :
    computeTasks
        (merged_rows [[("number", "111"), ("service_name", "S"),
          ("message", "hi"), ("range", "R")]] 0)
        [⟨"grp", "g1"⟩]
        ⟨"2025-10-11", ∅, [], fun _ _ => none, fun _ => {"g1"}⟩ ∅ = []
    ∧ (dispatchCycle "t"
        (merged_rows [[("number", "111"), ("service_name", "S"),
          ("message", "hi"), ("range", "R")]] 0)
        [⟨"grp", "g1"⟩] (fun _ _ => ⟨Attempt.raise, Attempt.raise, Attempt.raise⟩)
        ⟨"2025-10-11", ∅, [], fun _ _ => none, fun _ => {"g1"}⟩ ∅).1.sent
      = (⟨"2025-10-11", ∅, [], fun _ _ => none, fun _ => {"g1"}⟩ : Store).sent :=
  C1_idempotent_cycle "t" _ 0 _ _ _ ∅ (by decide)

/-- C7: within a day, `delivered_by_msg` only grows across dispatch steps —
a full dispatch cycle never removes a destination from any message's
delivered set, and each per-message update is exactly the old set united
with the destinations that succeeded in that round. -/
theorem C7_delivered_monotone (now_str : String) (rows : List Item)
    (groups : List TgGroup) (env : Item → TgGroup → GroupEnv)
    (store : Store) (invalid : Finset String) :
    (∀ k, store.delivered_by_msg k ⊆
        (dispatchCycle now_str rows groups env store invalid).1.delivered_by_msg k)
    ∧ (∀ (item : Item) (pairs : List (TgGroup × GroupEnv)) (st : Store)
          (inv : Finset String),
        (dispatchMessage now_str item pairs st inv).1.delivered_by_msg (msg_key item)
          = st.delivered_by_msg (msg_key item) ∪
            successSet (st.latest_by_thread (thread_key item)) pairs inv) := by
  constructor
  · intro k
    exact foldl_dispatch_delivered_mono now_str env _ (store, invalid) k
  · intro item pairs st inv
    exact dispatchMessage_delivered_update now_str item pairs st inv

/-- C8 counterexample: a message whose every destination attempt in this
round fails still gets an audit record appended, because its delivered set
is nonempty from an earlier cycle (`if any_sent or delivered_set:`).
The single owed destination "g2" fails (`send` reply not ok, no retry),
no success occurs, yet `sent` grows by one. -/
theorem C8_cex :
    (runGroup ((⟨"2025-10-11", ∅, [],
        fun _ _ => none,
        fun k => if k = "111|S|R|hi" then {"d1"} else ∅⟩ : Store).latest_by_thread
        "111|S|R" "g2")
      ⟨Attempt.raise, Attempt.respFail "boom" 0, Attempt.raise⟩).delivered = false
    ∧ (dispatchMessage "t"
        [("number", "111"), ("service_name", "S"), ("message", "hi"), ("range", "R")]
        [(⟨"grp2", "g2"⟩, ⟨Attempt.raise, Attempt.respFail "boom" 0, Attempt.raise⟩)]
        ⟨"2025-10-11", ∅, [],
          fun _ _ => none,
          fun k => if k = "111|S|R|hi" then {"d1"} else ∅⟩ ∅).1.sent.length = 1 := by
  constructor
  · rfl
  · decide

/-- C8 amended: dispatching one message appends exactly one audit record
when some destination outcome in this round succeeded **or** the message
already had delivered destinations from earlier rounds, and appends
nothing when every attempt failed and the prior delivered set was empty;
the previous `sent` log is always a prefix of the new one (no deletion or
rewriting), and no delivered destination is ever removed. -/
theorem C8_sent_log (now_str : String) (item : Item)
    (pairs : List (TgGroup × GroupEnv)) (store : Store) (invalid : Finset String) :
    (dispatchMessage now_str item pairs store invalid).1.sent.length
      = store.sent.length +
        (if (successSet (store.latest_by_thread (thread_key item)) pairs invalid).Nonempty
            ∨ (store.delivered_by_msg (msg_key item)).Nonempty then 1 else 0)
    ∧ store.sent <+: (dispatchMessage now_str item pairs store invalid).1.sent
    ∧ (∀ k, store.delivered_by_msg k ⊆
        (dispatchMessage now_str item pairs store invalid).1.delivered_by_msg k) :=
  ⟨(dispatchMessage_sent_shape now_str item pairs store invalid).1,
   (dispatchMessage_sent_shape now_str item pairs store invalid).2,
   fun k => dispatchMessage_delivered_mono now_str item pairs store invalid k⟩

/-- C10: frame property of the thread-map update.  (1) For any destination
for which no pair of this round produced an integer handle, the entry of
`latest_by_thread[thread_key]` is unchanged.  (2) A delivered head
destination is recorded in `delivered_by_msg`.  (3) An edit success whose
reply lacks an integer `message_id` keeps the previous handle while the
destination is delivered.  (4) A send success whose reply lacks a
`message_id` keeps the previous handle (in particular `none` stays
`none`) while the destination is delivered. -/
theorem C10_thread_map_frame (now_str : String) (item : Item)
    (pairs : List (TgGroup × GroupEnv)) (store : Store) (invalid : Finset String) :
    (∀ gid : String,
        (∀ g env, (g, env) ∈ pairs → g.chat_id = gid →
            (runGroup (store.latest_by_thread (thread_key item) g.chat_id) env).nextEntry
              = none) →
        (dispatchMessage now_str item pairs store invalid).1.latest_by_thread
            (thread_key item) gid
          = store.latest_by_thread (thread_key item) gid)
    ∧ (∀ g env rest, pairs = (g, env) :: rest → g.chat_id ∉ invalid →
        (runGroup (store.latest_by_thread (thread_key item) g.chat_id) env).delivered
            = true →
        g.chat_id ∈ (dispatchMessage now_str item pairs store invalid).1.delivered_by_msg
            (msg_key item))
    ∧ (∀ (p : Int) (env : GroupEnv), env.edit = Attempt.respOk none →
        (runGroup (some p) env).delivered = true
        ∧ (runGroup (some p) env).nextEntry = some p)
    ∧ (∀ (prev : Option Int) (env : GroupEnv) (d : String) (ra : Int),
        (prev = none ∨ env.edit = Attempt.raise ∨ env.edit = Attempt.respFail d ra) →
        env.send1 = Attempt.respOk none →
        (runGroup prev env).delivered = true
        ∧ (runGroup prev env).nextEntry = prev) := by
  refine ⟨?_, ?_, ?_, ?_⟩
  · intro gid hnone
    unfold dispatchMessage
    set st0 := initMsgState invalid (store.delivered_by_msg (msg_key item)) with hst0
    have hframe := runGroupsAux_next_map_frame
      (store.latest_by_thread (thread_key item)) pairs st0 gid hnone
    by_cases hg : (runGroupsAux (store.latest_by_thread (thread_key item)) pairs
        st0).any_sent = true ∨
        (runGroupsAux (store.latest_by_thread (thread_key item)) pairs
          st0).delivered.Nonempty
    · simp only [hg, if_true, if_pos rfl]
      unfold mergedThreadMap
      rw [hframe]
      simp [hst0, initMsgState]
    · simp only [hg, if_false]
  · intro g env rest hp hginv hdel
    subst hp
    unfold dispatchMessage
    set prevMap := store.latest_by_thread (thread_key item) with hpm
    set st0 := initMsgState invalid (store.delivered_by_msg (msg_key item)) with hst0
    have hrun : runGroupsAux prevMap ((g, env) :: rest) st0
        = runGroupsAux prevMap rest
          { invalid := st0.invalid,
            delivered := insert g.chat_id st0.delivered,
            any_sent := true,
            sent_info := st0.sent_info ++
              [⟨g.name, g.chat_id, (runGroup (prevMap g.chat_id) env).msg_id⟩],
            next_map :=
              match (runGroup (prevMap g.chat_id) env).nextEntry with
              | some v => fun x => if x = g.chat_id then some v else st0.next_map x
              | none => st0.next_map } := by
      have hginv0 : g.chat_id ∉ st0.invalid := by simpa [hst0, initMsgState] using hginv
      simp [runGroupsAux, hginv0, hdel]
    have hany : (runGroupsAux prevMap ((g, env) :: rest) st0).any_sent = true := by
      rw [hrun, runGroupsAux_any_sent]
      exact Or.inl rfl
    have hmem : g.chat_id ∈ (runGroupsAux prevMap ((g, env) :: rest) st0).delivered := by
      rw [hrun, runGroupsAux_delivered]
      exact Finset.mem_union_left _ (Finset.mem_insert_self _ _)
    simp only [Or.inl hany, if_true, if_pos rfl]
    exact hmem
  · intro p env hedit
    constructor
    · simp [runGroup, hedit, successStep]
    · simp [runGroup, hedit, successStep, pyOrOpt]
  · intro prev env d ra hE hs1
    have hphase : ∀ ec, (sendPhase prev env ec).delivered = true
        ∧ (sendPhase prev env ec).nextEntry = prev := by
      intro ec
      constructor
      · simp [sendPhase, hs1, successStep]
      · simp [sendPhase, hs1, successStep, pyOrOpt]
    rcases hE with h | h | h
    · subst h
      exact hphase 0
    · cases prev with
      | none => exact hphase 0
      | some p => simpa [runGroup, h] using hphase 1
    · cases prev with
      | none => exact hphase 0
      | some p => simpa [runGroup, h] using hphase 1

/-- C10 witness: a concrete successful head destination is recorded as
delivered by the dispatch of its message. -/
theorem C10_thread_map_frame_w :
    "g1" ∈ (dispatchMessage "t"
        [("number", "111"), ("service_name", "S"), ("message", "hi"), ("range", "R")]
        [(⟨"grp", "g1"⟩, ⟨Attempt.raise, Attempt.respOk (some 5), Attempt.raise⟩)]
        (emptyDayStore "2025-10-11") ∅).1.delivered_by_msg
        (msg_key [("number", "111"), ("service_name", "S"), ("message", "hi"),
          ("range", "R")]) :=
  (C10_thread_map_frame "t"
      [("number", "111"), ("service_name", "S"), ("message", "hi"), ("range", "R")]
      [(⟨"grp", "g1"⟩, ⟨Attempt.raise, Attempt.respOk (some 5), Attempt.raise⟩)]
      (emptyDayStore "2025-10-11") ∅).2.1
    ⟨"grp", "g1"⟩ ⟨Attempt.raise, Attempt.respOk (some 5), Attempt.raise⟩ [] rfl
    (Finset.not_mem_empty _) (by decide)

/-- C4: the rate-limit path.  If the destination reaches the fresh-send
phase (no prior handle, or the edit raised or failed), the first send
fails with a positive `retry_after`, then (A) exactly one retry happens
(two send calls in total); (B) a successful retry delivers the
destination, and dispatching the message with that single destination
appends exactly one audit record carrying exactly one destination
sub-record — one success, not two; (C) a failing retry leaves the
destination undelivered: it is not added to `delivered_by_msg`. -/
theorem C4_rate_limit_retry (g : TgGroup) (prev : Option Int) (env : GroupEnv)
    (d : String) (ra : Int) (now_str : String) (item : Item) (store : Store)
    (invalid : Finset String)
    (hE : prev = none ∨ env.edit = Attempt.raise ∨
        (∃ d0 ra0, env.edit = Attempt.respFail d0 ra0))
    (hprev : store.latest_by_thread (thread_key item) g.chat_id = prev)
    (hs1 : env.send1 = Attempt.respFail d ra) (hra : 0 < ra)
    (hginv : g.chat_id ∉ invalid) :
    (runGroup prev env).sendCalls = 2
    ∧ (∀ mid, env.send2 = Attempt.respOk mid →
        (runGroup prev env).delivered = true
        ∧ (∃ rec : SentRecord,
            (dispatchMessage now_str item [(g, env)] store invalid).1.sent
              = store.sent ++ [rec]
            ∧ rec.groups = [⟨g.name, g.chat_id, pyOrOpt mid prev⟩]))
    ∧ ((env.send2 = Attempt.raise ∨ ∃ d2 ra2, env.send2 = Attempt.respFail d2 ra2) →
        (runGroup prev env).delivered = false
        ∧ (g.chat_id ∉ store.delivered_by_msg (msg_key item) →
            g.chat_id ∉ (dispatchMessage now_str item [(g, env)]
              store invalid).1.delivered_by_msg (msg_key item))) := by
  have hrg : runGroup prev env = sendPhase prev env (if prev.isSome then 1 else 0) := by
    rcases hE with h | h | ⟨d0, ra0, h⟩
    · subst h; rfl
    · cases prev with
      | none => rfl
      | some p => simp [runGroup, h]
    · cases prev with
      | none => rfl
      | some p => simp [runGroup, h]
  refine ⟨?_, ?_, ?_⟩
  · rw [hrg]
    cases hs2 : env.send2 with
    | respOk mid => simp [sendPhase, hs1, hra, hs2, successStep]
    | respFail d2 ra2 => simp [sendPhase, hs1, hra, hs2, skipStep]
    | raise => simp [sendPhase, hs1, hra, hs2, skipStep]
  · intro mid hs2
    have hdel : (runGroup prev env).delivered = true := by
      rw [hrg]; simp [sendPhase, hs1, hra, hs2, successStep]
    refine ⟨hdel, ?_⟩
    have hmsg : (runGroup prev env).msg_id = pyOrOpt mid prev := by
      rw [hrg]; simp [sendPhase, hs1, hra, hs2, successStep]
    unfold dispatchMessage
    set prevMap := store.latest_by_thread (thread_key item) with hpm
    set st0 := initMsgState invalid (store.delivered_by_msg (msg_key item)) with hst0
    have hginv0 : g.chat_id ∉ st0.invalid := by simpa [hst0, initMsgState] using hginv
    have hrun : runGroupsAux prevMap [(g, env)] st0
        = { invalid := st0.invalid,
            delivered := insert g.chat_id st0.delivered,
            any_sent := true,
            sent_info := st0.sent_info ++
              [⟨g.name, g.chat_id, (runGroup (prevMap g.chat_id) env).msg_id⟩],
            next_map :=
              match (runGroup (prevMap g.chat_id) env).nextEntry with
              | some v => fun x => if x = g.chat_id then some v else st0.next_map x
              | none => st0.next_map } := by
      have hprev2 : prevMap g.chat_id = prev := by rw [hpm]; exact hprev
      simp [runGroupsAux, hginv0, hprev2, hdel]
    have hany : (runGroupsAux prevMap [(g, env)] st0).any_sent = true := by
      rw [hrun]
    simp only [hany, true_or, if_true]
    refine ⟨mkSentRecord now_str item (runGroupsAux prevMap [(g, env)] st0).sent_info,
      rfl, ?_⟩
    rw [hrun]
    simp [hst0, initMsgState, mkSentRecord, hprev, hmsg]
  · intro hs2
    have hdel : (runGroup prev env).delivered = false := by
      rw [hrg]
      rcases hs2 with h | ⟨d2, ra2, h⟩
      · simp [sendPhase, hs1, hra, h, skipStep]
      · simp [sendPhase, hs1, hra, h, skipStep]
    refine ⟨hdel, ?_⟩
    intro hnd
    have hupd := dispatchMessage_delivered_update now_str item [(g, env)] store invalid
    rw [hupd]
    intro hmem
    rcases Finset.mem_union.1 hmem with h | h
    · exact hnd h
    · have hdel2 : (runGroup (store.latest_by_thread (thread_key item) g.chat_id)
          env).delivered = false := by
        rw [hprev]; exact hdel
      simp [successSet, hginv, hdel2] at h

/-- C4 witness: a rate-limited first send followed by a successful retry
makes exactly two send calls. -/
theorem C4_rate_limit_retry_w :
    (runGroup none ⟨Attempt.raise, Attempt.respFail "Too Many Requests" 5,
      Attempt.respOk (some 7)⟩).sendCalls = 2 :=
  (C4_rate_limit_retry ⟨"grp", "g1"⟩ none
      ⟨Attempt.raise, Attempt.respFail "Too Many Requests" 5, Attempt.respOk (some 7)⟩
      "Too Many Requests" 5 "t"
      [("number", "111"), ("service_name", "S"), ("message", "hi"), ("range", "R")]
      (emptyDayStore "2025-10-11") ∅ (Or.inl rfl) rfl rfl (by decide)
      (Finset.not_mem_empty _)).1

/-- C5: edit-before-send per destination.  (1) With a prior integer handle
the edit is attempted (and never without one); (2) an edit success
short-circuits the fresh send; (3) a "message is not modified" reply is
converted by `edit_telegram_message` into a success that carries the
existing `message_id`; (4) consumed by the dispatch loop, that reply
delivers the destination and keeps the existing handle (no new delivery
handle); (5) any other edit failure (non-ok reply or exception) falls
through to the fresh-send phase. -/
theorem C5_edit_before_send :
    (∀ (p : Int) (env : GroupEnv), (runGroup (some p) env).editCalls = 1
        ∧ (runGroup none env).editCalls = 0)
    ∧ (∀ (p : Int) (env : GroupEnv) (mid : Option Int),
        env.edit = Attempt.respOk mid →
        (runGroup (some p) env).sendCalls = 0
        ∧ (runGroup (some p) env).delivered = true)
    ∧ (∀ (p : Int) (r1 r2 : RawResp), r1.ok = false →
        strContains (pyLower r1.description) "message is not modified" = true →
        edit_telegram_message p r1 r2
          = { ok := true, result_message_id := some p, not_modified := true,
              description := "" })
    ∧ (∀ (p : Int) (r1 r2 : RawResp) (s1 s2 : Attempt), r1.ok = false →
        strContains (pyLower r1.description) "message is not modified" = true →
        (runGroup (some p)
            ⟨attemptOfEdit (edit_telegram_message p r1 r2), s1, s2⟩).delivered = true
        ∧ (runGroup (some p)
            ⟨attemptOfEdit (edit_telegram_message p r1 r2), s1, s2⟩).nextEntry
          = some p)
    ∧ (∀ (p : Int) (env : GroupEnv) (d0 : String) (ra0 : Int),
        env.edit = Attempt.respFail d0 ra0 ∨ env.edit = Attempt.raise →
        runGroup (some p) env = sendPhase (some p) env 1) := by
  have hnotmod : ∀ (p : Int) (r1 r2 : RawResp), r1.ok = false →
      strContains (pyLower r1.description) "message is not modified" = true →
      edit_telegram_message p r1 r2
        = { ok := true, result_message_id := some p, not_modified := true,
            description := "" } := by
    intro p r1 r2 hok hc
    unfold edit_telegram_message
    rw [if_neg (by simp [hok]), if_pos hc]
  have hsp : ∀ (prev : Option Int) (env : GroupEnv) (ec : Nat),
      (sendPhase prev env ec).editCalls = ec := by
    intro prev env ec
    cases hs1 : env.send1 with
    | respOk mid => simp [sendPhase, hs1, successStep]
    | raise => simp [sendPhase, hs1, skipStep]
    | respFail d1 ra1 =>
        by_cases hra : 0 < ra1
        · cases hs2 : env.send2 with
          | respOk mid => simp [sendPhase, hs1, hra, hs2, successStep]
          | raise => simp [sendPhase, hs1, hra, hs2, skipStep]
          | respFail d2 ra2 => simp [sendPhase, hs1, hra, hs2, skipStep]
        · simp [sendPhase, hs1, hra, skipStep]
  refine ⟨?_, ?_, hnotmod, ?_, ?_⟩
  · intro p env
    constructor
    · cases he : env.edit with
      | respOk mid => simp [runGroup, he, successStep]
      | respFail d0 ra0 =>
          simp only [runGroup, he]
          exact hsp (some p) env 1
      | raise =>
          simp only [runGroup, he]
          exact hsp (some p) env 1
    · exact hsp none env 0
  · intro p env mid he
    constructor
    · simp [runGroup, he, successStep]
    · simp [runGroup, he, successStep]
  · intro p r1 r2 s1 s2 hok hc
    have hatt : attemptOfEdit (edit_telegram_message p r1 r2)
        = Attempt.respOk (some p) := by
      rw [hnotmod p r1 r2 hok hc]
      rfl
    constructor
    · simp [runGroup, hatt, successStep]
    · simp [runGroup, hatt, successStep, pyOrOpt]
  · intro p env d0 ra0 he
    rcases he with h | h
    · simp [runGroup, h]
    · simp [runGroup, h]

/-- C5 witness: a concrete "message is not modified" reply is turned into
a success keeping message id 10. -/
theorem C5_edit_before_send_w :
    edit_telegram_message 10
        ⟨false, "Bad Request: message is not modified", none⟩ ⟨false, "x", none⟩
      = { ok := true, result_message_id := some 10, not_modified := true,
          description := "" } :=
  C5_edit_before_send.2.2.1 10
    ⟨false, "Bad Request: message is not modified", none⟩ ⟨false, "x", none⟩
    rfl (by decide)

/-- C2 counterexample: with limit 1 and two fetched rows of distinct
message keys, both keys are owed to group "g1", yet the cycle computes a
task only for the first distinct key — the limit IS applied to the merged,
deduplicated row set (line 1042), so the cycle does not dispatch over all
distinct keys of the union. -/
theorem C2_cex :
    msg_key [("number", "1"), ("service_name", "s"), ("message", "a"), ("range", "r")]
        ≠ msg_key [("number", "2"), ("service_name", "s"), ("message", "b"), ("range", "r")]
    ∧ (merged_rows
        [[("number", "1"), ("service_name", "s"), ("message", "a"), ("range", "r")],
         [("number", "2"), ("service_name", "s"), ("message", "b"), ("range", "r")]]
        1).length = 1
    ∧ (computeTasks
        (merged_rows
          [[("number", "1"), ("service_name", "s"), ("message", "a"), ("range", "r")],
           [("number", "2"), ("service_name", "s"), ("message", "b"), ("range", "r")]]
          1)
        [⟨"grp", "g1"⟩] (emptyDayStore "2025-10-11") ∅).length = 1
    ∧ (computeTasks
        ((mergeRows
          [[("number", "1"), ("service_name", "s"), ("message", "a"), ("range", "r")],
           [("number", "2"), ("service_name", "s"), ("message", "b"), ("range", "r")]]).map
          Prod.snd)
        [⟨"grp", "g1"⟩] (emptyDayStore "2025-10-11") ∅).length = 2 := by
  refine ⟨by decide, by decide, by decide, by decide⟩

/-- C2 amended: `per_source_limit` caps the rows of each individual fetch
call, and the merged deduplicated list — one representative per distinct
message key, drawn from the fetched rows — is additionally truncated to
its first `limit` entries; a limit ≤ 0 means unlimited at both levels. -/
theorem C2_limit_caps (rows : List Item) (limit : Int) :
    (limit ≤ 0 → fetch_messages_rows rows limit = rows)
    ∧ (0 < limit → (fetch_messages_rows rows limit).length ≤ limit.toNat)
    ∧ (limit ≤ 0 → merged_rows rows limit = (mergeRows rows).map Prod.snd)
    ∧ (0 < limit →
        merged_rows rows limit = ((mergeRows rows).map Prod.snd).take limit.toNat)
    ∧ (((mergeRows rows).map Prod.snd).map msg_key).Nodup
    ∧ (∀ item ∈ (mergeRows rows).map Prod.snd, item ∈ rows) := by
  refine ⟨?_, ?_, ?_, ?_, nodup_msg_keys_merged rows, ?_⟩
  · intro h
    simp [fetch_messages_rows, h]
  · intro h
    rw [fetch_messages_rows, if_neg (by omega)]
    exact List.length_take_le _ _
  · intro h
    simp [merged_rows, h]
  · intro h
    rw [merged_rows, if_neg (by omega)]
  · intro item hit
    obtain ⟨p, hp, hpe⟩ := List.mem_map.1 hit
    exact hpe ▸ mem_mergeRows_values rows p hp

/-- C2 witness: with limit ≤ 0 one source's rows pass through uncapped. -/
theorem C2_limit_caps_w :
    fetch_messages_rows
      [[("number", "1"), ("service_name", "s"), ("message", "a"), ("range", "r")]] 0
      = [[("number", "1"), ("service_name", "s"), ("message", "a"), ("range", "r")]] :=
  (C2_limit_caps
    [[("number", "1"), ("service_name", "s"), ("message", "a"), ("range", "r")]] 0).1
    (by decide)

/-- The whole dispatch cycle never removes invalid destinations. -/
theorem dispatchCycle_invalid_mono (now_str : String) (rows : List Item)
    (groups : List TgGroup) (env : Item → TgGroup → GroupEnv)
    (store : Store) (invalid : Finset String) :
    invalid ⊆ (dispatchCycle now_str rows groups env store invalid).2 :=
  foldl_dispatch_invalid_mono now_str env _ (store, invalid)

/-- C3 counterexample: destination "g1" is in `invalid_groups` at the start
of the iteration, but the runtime-config marker changed, so the reload
clears `invalid_groups` (line 935) and the same cycle then successfully
delivers to "g1" — contradicting "never again attempted for the remainder
of the process lifetime, across configuration reloads". -/
theorem C3_cex :
    "g1" ∈ (cycleStep
        { latest_marker := "m1", reload_groups := [⟨"grp", "g1"⟩],
          db := fun _ => none, fetch_enabled := true,
          now_day := "2025-10-11", now_str := "t",
          all_rows := [[("number", "111"), ("service_name", "S"),
            ("message", "hi"), ("range", "R")]],
          limit := 0,
          env := fun _ _ => ⟨Attempt.raise, Attempt.respOk (some 5), Attempt.raise⟩ }
        { update_marker := "m0", target_groups := [⟨"grp", "g1"⟩],
          invalid := {"g1"}, store := emptyDayStore "2025-10-11",
          active_day := "2025-10-11" }).store.delivered_by_msg
      (msg_key [("number", "111"), ("service_name", "S"), ("message", "hi"),
        ("range", "R")]) := by
  decide

/-- C3 amended: destinations marked invalid are excluded from the task
groups of every dispatch and the invalid set only grows across cycle
iterations **as long as no runtime-config reload fires**; an iteration
whose config marker changed clears the invalid set (so such destinations
may be attempted again after a reload). -/
theorem C3_invalid_lifetime (inp : CycleInput) (st : BotState) :
    ((inp.latest_marker = "" ∨ inp.latest_marker = st.update_marker) →
        st.invalid ⊆ (cycleStep inp st).invalid)
    ∧ (∀ (rows : List Item) (groups : List TgGroup) (store : Store)
          (inv : Finset String) (t : Item × List TgGroup × Bool) (g : TgGroup),
        t ∈ computeTasks rows groups store inv → g ∈ t.2.1 → g.chat_id ∉ inv)
    ∧ ((inp.latest_marker ≠ "" ∧ inp.latest_marker ≠ st.update_marker) →
        inp.fetch_enabled = false → (cycleStep inp st).invalid = ∅) := by
  refine ⟨?_, ?_, ?_⟩
  · intro h
    have hcond : ¬(inp.latest_marker ≠ "" ∧ inp.latest_marker ≠ st.update_marker) := by
      rcases h with h | h
      · exact fun hc => hc.1 h
      · exact fun hc => hc.2 h
    unfold cycleStep
    rw [if_neg hcond]
    by_cases hf : inp.fetch_enabled = false
    · rw [if_pos hf]
    · rw [if_neg hf]
      by_cases hgr : st.target_groups = []
      · rw [if_pos hgr]
      · rw [if_neg hgr]
        by_cases hd : inp.now_day ≠ st.active_day
        · rw [if_pos hd]
          exact dispatchCycle_invalid_mono _ _ _ _ _ _
        · rw [if_neg hd]
          exact dispatchCycle_invalid_mono _ _ _ _ _ _
  · intro rows groups store inv t g ht hg
    unfold computeTasks at ht
    rcases List.mem_filterMap.1 ht with ⟨item, hitem, hf⟩
    simp only [] at hf
    by_cases hm : (groups.filter fun g1 =>
        g1.chat_id ∉ store.delivered_by_msg (msg_key item) ∧ g1.chat_id ∉ inv) = []
    · rw [if_pos hm] at hf
      exact Option.noConfusion hf
    · rw [if_neg hm] at hf
      have ht2 : t.2.1 = groups.filter fun g1 =>
          g1.chat_id ∉ store.delivered_by_msg (msg_key item) ∧ g1.chat_id ∉ inv := by
        have := congrArg (fun o => o.map (fun x => x.2.1)) hf
        simpa using this.symm
      rw [ht2] at hg
      have := List.mem_filter.1 hg
      have hprop := of_decide_eq_true this.2
      exact hprop.2
  · intro hre hf
    unfold cycleStep
    rw [if_pos hf, if_pos hre]

/-- C3 witness: a reload iteration (marker changed) with fetching paused
ends with an empty invalid set even though "g1" was invalid before. -/
theorem C3_invalid_lifetime_w :
    (cycleStep
        { latest_marker := "m1", reload_groups := [], db := fun _ => none,
          fetch_enabled := false, now_day := "2025-10-11", now_str := "t",
          all_rows := [], limit := 0,
          env := fun _ _ => ⟨Attempt.raise, Attempt.raise, Attempt.raise⟩ }
        { update_marker := "m0", target_groups := [], invalid := {"g1"},
          store := emptyDayStore "2025-10-11", active_day := "2025-10-11" }).invalid
      = ∅ :=
  (C3_invalid_lifetime
      { latest_marker := "m1", reload_groups := [], db := fun _ => none,
        fetch_enabled := false, now_day := "2025-10-11", now_str := "t",
        all_rows := [], limit := 0,
        env := fun _ _ => ⟨Attempt.raise, Attempt.raise, Attempt.raise⟩ }
      { update_marker := "m0", target_groups := [], invalid := {"g1"},
        store := emptyDayStore "2025-10-11", active_day := "2025-10-11" }).2.2
    (by constructor <;> decide) rfl

/-- C6 counterexample: the persisted stores are `{D1}`; rotating to D2
(`cleanup_old_daily_files` then `load_daily_store`, `run_loop` 975-989)
leaves **no** persisted day store — D2 is not persisted by rotation, so
the persisted set does not "contain exactly D2"; D1 is indeed gone. -/
theorem C6_rotation_cex :
    cleanup_old_daily_files
        (fun k => if k = "2025-10-11" then some (emptyDayStore "2025-10-11") else none)
        "2025-10-12" "2025-10-12" = none
    ∧ cleanup_old_daily_files
        (fun k => if k = "2025-10-11" then some (emptyDayStore "2025-10-11") else none)
        "2025-10-12" "2025-10-11" = none := by
  constructor
  · rfl
  · rfl

/-- C6 amended: rotation to day D2 deletes every persisted store of a day
other than D2 (none archived); D2's persisted store is exactly what it was
before (so it persists only if it already existed); and the freshly loaded
D2 store is empty unless one already existed, in which case it is loaded
with its `day` field set to D2. -/
theorem C6_rotation (db : DailyDB) (d2 : String) :
    (∀ k, k ≠ d2 → cleanup_old_daily_files db d2 k = none)
    ∧ cleanup_old_daily_files db d2 d2 = db d2
    ∧ (db d2 = none →
        load_daily_store (cleanup_old_daily_files db d2) d2 = emptyDayStore d2)
    ∧ (∀ s, db d2 = some s →
        load_daily_store (cleanup_old_daily_files db d2) d2 = { s with day := d2 }) := by
  refine ⟨?_, ?_, ?_, ?_⟩
  · intro k hk
    simp [cleanup_old_daily_files, hk]
  · simp [cleanup_old_daily_files]
  · intro h
    simp [load_daily_store, cleanup_old_daily_files, h]
  · intro s h
    simp [load_daily_store, cleanup_old_daily_files, h]

/-- C6 witness: rotating to 2025-10-12 deletes the persisted store of any
other day. -/
theorem C6_rotation_w :
    cleanup_old_daily_files
      (fun k => if k = "2025-10-10" then some (emptyDayStore "2025-10-10") else none)
      "2025-10-12" "2025-10-10" = none :=
  (C6_rotation
      (fun k => if k = "2025-10-10" then some (emptyDayStore "2025-10-10") else none)
      "2025-10-12").1 "2025-10-10" (by decide)

/-- C9 counterexample: a cached entry whose `expires_at` (1000000) exceeds
`now + 5-minute skew` but whose token is blank still triggers a login call
— refuting "returns the cached token without a login call if and only if
the cached entry's expires_at exceeds the current time plus the refresh
skew". -/
theorem C9_cex :
    (get_or_refresh_account_token 0 "acct" (fun _ => none)
        (fun n => if n = "acct" then
          some { token := "", obtained_at := 0, expires_at := 1000000 } else none)
        none).loginCalled = true
    ∧ (0 : Int) + TOKEN_REFRESH_SKEW_SECONDS < 1000000 := by
  constructor
  · rfl
  · decide

/-- C9 amended: no login call happens iff the cache holds a valid entry —
one that exists, has a nonempty (stripped) token, and expires strictly
after `now` plus the 5-minute refresh skew.  On an invalid cache entry a
login is performed: a failed login returns nothing, changes no cache state
and persists nothing, while a successful login returns the token, stores
`{token, obtained_at = now, expires_at = now + TTL}` under the account
(leaving other accounts' entries unchanged) and persists the cache
synchronously (`saved = true`) before returning. -/
theorem C9_token_broker (now : Int) (name : String)
    (account_tokens : String → Option String) (cache : TokenCache)
    (loginResult : Option String) :
    ((get_or_refresh_account_token now name account_tokens cache
          loginResult).loginCalled = false
      ↔ (cache_get_valid_token cache name now).isSome)
    ∧ ((cache_get_valid_token cache name now).isSome
      ↔ ∃ row, cache name = some row ∧ pyStrip row.token ≠ ""
          ∧ now + TOKEN_REFRESH_SKEW_SECONDS < row.expires_at)
    ∧ (loginResult = none → cache_get_valid_token cache name now = none →
        (get_or_refresh_account_token now name account_tokens cache
            loginResult).result = none
        ∧ (get_or_refresh_account_token now name account_tokens cache
            loginResult).token_cache = cache
        ∧ (get_or_refresh_account_token now name account_tokens cache
            loginResult).saved = false)
    ∧ (∀ tok, loginResult = some tok → cache_get_valid_token cache name now = none →
        (get_or_refresh_account_token now name account_tokens cache
            loginResult).result = some tok
        ∧ (get_or_refresh_account_token now name account_tokens cache
            loginResult).saved = true
        ∧ (get_or_refresh_account_token now name account_tokens cache
            loginResult).token_cache name
          = some { token := tok, obtained_at := now,
                   expires_at := now + TOKEN_TTL_SECONDS }
        ∧ (∀ n, n ≠ name →
            (get_or_refresh_account_token now name account_tokens cache
              loginResult).token_cache n = cache n)) := by
  refine ⟨?_, ?_, ?_, ?_⟩
  · by_cases hv : (cache_get_valid_token cache name now).isSome
    · obtain ⟨c, hc⟩ := Option.isSome_iff_exists.1 hv
      by_cases ht : truthyStr (account_tokens name) = true
      · simp [get_or_refresh_account_token, ht, hv, hc]
      · simp [get_or_refresh_account_token, ht, hv, hc]
    · have hn : cache_get_valid_token cache name now = none :=
        Option.not_isSome_iff_eq_none.1 hv
      cases hl : loginResult with
      | none => simp [get_or_refresh_account_token, hn, hv, hl]
      | some tok => simp [get_or_refresh_account_token, hn, hv, hl]
  · cases hc : cache name with
    | none => simp [cache_get_valid_token, hc]
    | some row =>
        by_cases hcond : pyStrip row.token = ""
            ∨ row.expires_at ≤ now + TOKEN_REFRESH_SKEW_SECONDS
        · rw [cache_get_valid_token, hc]
          simp only [hcond, if_true]
          simp only [Option.isSome_none, Bool.false_eq_true, false_iff]
          rintro ⟨row2, hrow2, hne, hlt⟩
          cases hrow2
          rcases hcond with h1 | h1
          · exact hne h1
          · omega
        · rw [cache_get_valid_token, hc]
          simp only [hcond, if_false]
          simp only [Option.isSome_some, true_iff]
          push_neg at hcond
          exact ⟨row, rfl, hcond.1, by omega⟩
  · intro hl hn
    have hv : ¬ (cache_get_valid_token cache name now).isSome = true := by
      simp [hn]
    refine ⟨?_, ?_, ?_⟩ <;>
      simp [get_or_refresh_account_token, hn, hv, hl]
  · intro tok hl hn
    have hv : ¬ (cache_get_valid_token cache name now).isSome = true := by
      simp [hn]
    refine ⟨?_, ?_, ?_, ?_⟩
    · simp [get_or_refresh_account_token, hn, hv, hl]
    · simp [get_or_refresh_account_token, hn, hv, hl]
    · simp [get_or_refresh_account_token, hn, hv, hl, cache_set_token]
    · intro n hne
      simp [get_or_refresh_account_token, hn, hv, hl, cache_set_token, hne]

/-- C9 witness: with an empty cache a successful login persists the cache
synchronously. -/
theorem C9_token_broker_w :
    (get_or_refresh_account_token 0 "acct" (fun _ => none) (fun _ => none)
      (some "tok123")).saved = true :=
  ((C9_token_broker 0 "acct" (fun _ => none) (fun _ => none)
      (some "tok123")).2.2.2 "tok123" rfl rfl).2.1

/-- C7 witness: a concrete previously delivered destination survives a
dispatch cycle. -/
theorem C7_delivered_monotone_w :
    "d1" ∈ (dispatchCycle "t" [] []
        (fun _ _ => ⟨Attempt.raise, Attempt.raise, Attempt.raise⟩)
        ⟨"2025-10-11", ∅, [], fun _ _ => none, fun _ => {"d1"}⟩ ∅).1.delivered_by_msg
      "k" :=
  (C7_delivered_monotone "t" [] []
      (fun _ _ => ⟨Attempt.raise, Attempt.raise, Attempt.raise⟩)
      ⟨"2025-10-11", ∅, [], fun _ _ => none, fun _ => {"d1"}⟩ ∅).1 "k" (by decide)

/-- C8 witness: the old `sent` log is a prefix of the new one for a
concrete dispatch. -/
theorem C8_sent_log_w :
    (⟨"2025-10-11", ∅, [], fun _ _ => none, fun _ => ∅⟩ : Store).sent <+:
      (dispatchMessage "t"
        [("number", "111"), ("service_name", "S"), ("message", "hi"), ("range", "R")]
        [] ⟨"2025-10-11", ∅, [], fun _ _ => none, fun _ => ∅⟩ ∅).1.sent :=
  (C8_sent_log "t"
      [("number", "111"), ("service_name", "S"), ("message", "hi"), ("range", "R")]
      [] ⟨"2025-10-11", ∅, [], fun _ _ => none, fun _ => ∅⟩ ∅).2.1
